import Mathlib

/-!
# Verification of the hotel ordering backend (`main.py`, `schemas.py`)

A shallow embedding of the order-lifecycle and billing endpoints of the
FastAPI backend.  Monetary values are modelled as exact rationals (`ℚ`);
Python's `round(x, 2)` (round-half-to-even) is modelled by `round2`.
MongoDB ObjectIds are abstracted as natural numbers; the document store
(`database.py`, which is not part of the sources) is modelled from the
spec as an in-memory list per collection with insertion order preserved.
-/

namespace Hotel

/-- Python's `round` to an integer: round half to even (banker's rounding),
modelled on exact rationals. -/
def roundQ (q : ℚ) : ℤ :=
  if q - ⌊q⌋ < 1/2 then ⌊q⌋
  else if (1:ℚ)/2 < q - ⌊q⌋ then ⌊q⌋ + 1
  else if ⌊q⌋ % 2 = 0 then ⌊q⌋ else ⌊q⌋ + 1

/-- Python's `round(x, 2)`: round to 2 decimal places, half to even. -/
def round2 (q : ℚ) : ℚ := (roundQ (q * 100) : ℚ) / 100

/-- A stored menu item document (`schemas.MenuItem` plus its Mongo `_id`,
abstracted as a natural number). -/
structure MenuItem where
  id : Nat
  name : String
  description : Option String
  price : ℚ
  category : Option String
  is_available : Bool
deriving DecidableEq, Repr

/-- A line item inside an order (`schemas.OrderItem`): a price snapshot
captured at order time. -/
structure OrderItem where
  menu_item_id : Nat
  name : String
  price : ℚ
  quantity : Nat
  total : ℚ
deriving DecidableEq, Repr

/-- A stored order document (`schemas.Order` plus its Mongo `_id` and the
`created_at` timestamp added by the store on insertion). -/
structure Order where
  id : Nat
  table_number : String
  items : List OrderItem
  sub_total : ℚ
  tax : ℚ
  total : ℚ
  status : String
  paid : Bool
  notes : Option String
  created_at : Nat
deriving DecidableEq, Repr

/-- Errors raised by the handlers: `validationError` is
`HTTPException(status_code=400, detail)`, `notFoundError` is
`HTTPException(status_code=404, detail)`. -/
inductive ApiError where
  | validationError (detail : String)
  | notFoundError (detail : String)
deriving DecidableEq, Repr

/-- The document store state.  Modelled from the spec: `database.py` is not
among the sources; the spec describes a document store with insert,
find-by-id, find-by-filter and field-level update-by-id.  `nextId` is the
generator for fresh document ids and `now` the clock used for the
`created_at` timestamp stamped on insertion. -/
structure DB where
  menuitems : List MenuItem
  orders : List Order
  nextId : Nat
  now : Nat
deriving DecidableEq, Repr

/-- `OrderPlaceItem` from `main.py` (one requested line of an order). -/
structure OrderPlaceItem where
  menu_item_id : Nat
  quantity : Nat
deriving DecidableEq, Repr

/-- `PlaceOrderRequest` from `main.py`. -/
structure PlaceOrderRequest where
  table_number : String
  items : List OrderPlaceItem
  notes : Option String
deriving DecidableEq, Repr

/-- The `valid` set of `update_order_status`. -/
def validStatuses : List String :=
  ["placed", "preparing", "ready", "served", "paid", "cancelled"]

/-- `db["order"].find_one({"_id": oid})`: first order whose id matches. -/
def find_one_order (s : DB) (oid : Nat) : Option Order :=
  s.orders.find? (fun o => o.id == oid)

/-- `db["menuitem"].find_one({"_id": mid, "is_available": True})`: first
menu item with the given id that is available. -/
def find_one_available (s : DB) (mid : Nat) : Option MenuItem :=
  s.menuitems.find? (fun m => m.id == mid && m.is_available)

/-- Modelled from the spec: the store's field-level update-by-id primitive
(`update_one` with a `$set` payload).  Applies `f` to the first document
whose id matches; `none` models `matched_count == 0` (no write happens). -/
def update_one (f : Order → Order) (oid : Nat) : List Order → Option (List Order)
  | [] => none
  | o :: rest =>
    if o.id == oid then some (f o :: rest)
    else (update_one f oid rest).map (fun l => o :: l)

/-- The snapshot-building loop of `place_order`: for each requested item,
look up the available menu item (404 identifying the offending id if
absent) and capture name, price and `line_total = price * quantity`. -/
def buildSnapshot (s : DB) : List OrderPlaceItem → Except ApiError (List OrderItem)
  | [] => .ok []
  | it :: rest =>
    match find_one_available s it.menu_item_id with
    | none =>
        .error (.notFoundError
          ("Menu item not found or unavailable: " ++ toString it.menu_item_id))
    | some m =>
        match buildSnapshot s rest with
        | .error e => .error e
        | .ok tail =>
            .ok ({ menu_item_id := m.id, name := m.name, price := m.price,
                   quantity := it.quantity,
                   total := m.price * (it.quantity : ℚ) } :: tail)

/-- The `Order(...)` value built by `place_order`, with the id and
`created_at` stamped by `create_document` on insertion (modelled from the
spec: the store generates a fresh id and a creation timestamp). -/
def mkOrder (s : DB) (payload : PlaceOrderRequest) (snap : List OrderItem) : Order :=
  let sub_total := (snap.map (fun i => i.total)).sum
  let tax := round2 (sub_total * 0)
  let total := round2 (sub_total + tax)
  { id := s.nextId, table_number := payload.table_number, items := snap,
    sub_total := round2 sub_total, tax := tax, total := total,
    status := "placed", paid := false, notes := payload.notes,
    created_at := s.now }

/-- `POST /orders` (`place_order` in `main.py`).  Returns the handler's
response (the document re-read from the store after insertion) together
with the post state. -/
def place_order (s : DB) (payload : PlaceOrderRequest) :
    Except ApiError (Option Order) × DB :=
  if payload.items.isEmpty then
    (.error (.validationError "No items provided"), s)
  else
    match buildSnapshot s payload.items with
    | .error e => (.error e, s)
    | .ok snap =>
        let order := mkOrder s payload snap
        let s' : DB := { s with orders := s.orders ++ [order], nextId := s.nextId + 1 }
        (.ok (find_one_order s' s.nextId), s')

/-- The conjunctive Mongo filter built by `list_orders`: a `status` or
`table` query value is added to the filter only when it is truthy in
Python (present and non-empty); `paid` is added when present. -/
def orderMatches (status table : Option String) (paid : Option Bool) (d : Order) : Bool :=
  (match status with
   | none => true
   | some st => if st == "" then true else d.status == st) &&
  (match table with
   | none => true
   | some t => if t == "" then true else d.table_number == t) &&
  (match paid with
   | none => true
   | some b => d.paid == b)

/-- Sort key order of `docs.sort(key=lambda d: d.get("created_at"), reverse=True)`:
newest first. -/
def createdDesc (a b : Order) : Prop := b.created_at ≤ a.created_at

instance : DecidableRel createdDesc := fun a b => Nat.decLe b.created_at a.created_at

instance : IsTotal Order createdDesc :=
  ⟨fun a b => (Nat.le_total b.created_at a.created_at).imp id id⟩

instance : IsTrans Order createdDesc :=
  ⟨fun _ _ _ hab hbc => Nat.le_trans hbc hab⟩

/-- `GET /orders` (`list_orders` in `main.py`): filter, then stable sort
newest first (Python's `list.sort` is stable; a stable descending sort is
insertion sort with the reflexive descending key relation). -/
def list_orders (s : DB) (status table : Option String) (paid : Option Bool) :
    List Order :=
  List.insertionSort createdDesc (s.orders.filter (orderMatches status table paid))

/-- `PATCH /orders/{id}/status` (`update_order_status` in `main.py`). -/
def update_order_status (s : DB) (order_id : Nat) (status : String) :
    Except ApiError (Option Order) × DB :=
  if validStatuses.contains status = false then
    (.error (.validationError "Invalid status"), s)
  else
    match update_one (fun o => { o with status := status }) order_id s.orders with
    | none => (.error (.notFoundError "Order not found"), s)
    | some orders2 =>
        let s' : DB := { s with orders := orders2 }
        (.ok (find_one_order s' order_id), s')

/-- `PATCH /orders/{id}/pay` (`mark_order_paid` in `main.py`). -/
def mark_order_paid (s : DB) (order_id : Nat) :
    Except ApiError (Option Order) × DB :=
  match update_one (fun o => { o with paid := true, status := "paid" }) order_id s.orders with
  | none => (.error (.notFoundError "Order not found"), s)
  | some orders2 =>
      let s' : DB := { s with orders := orders2 }
      (.ok (find_one_order s' order_id), s')

/-- `GET /billing` (`billing_overview` in `main.py`): the unpaid orders and
`round(sum(total), 2)` over them. -/
def billing_overview (s : DB) : List Order × ℚ :=
  let docs := s.orders.filter (fun d => d.paid == false)
  (docs, round2 ((docs.map (fun d => d.total)).sum))

/-- The spec's words for the `listOrders` filter (claim C9): an order
matches when every *supplied* field equals the order's field — with no
special treatment of empty strings.  Used only to compare the spec's
reading against `orderMatches` from the code. -/
def specMatches (status table : Option String) (paid : Option Bool) (d : Order) : Bool :=
  (match status with
   | none => true
   | some st => d.status == st) &&
  (match table with
   | none => true
   | some t => d.table_number == t) &&
  (match paid with
   | none => true
   | some b => d.paid == b)

/-- Freshness of the modelled id generator: every stored order id is below
`nextId` (Mongo ObjectIds are unique, so a freshly generated id never
collides with a stored document). -/
def ordersFresh (s : DB) : Bool := s.orders.all (fun o => o.id < s.nextId)

/-! ## Concrete states used for evaluation -/

/-- A menu item whose price has three decimal places. -/
def mA : MenuItem :=
  { id := 1, name := "Tea", description := none, price := 1/1000, category := none,
    is_available := true }

/-- A store holding only `mA`. -/
def dbA : DB := { menuitems := [mA], orders := [], nextId := 2, now := 10 }

/-- A placement request for one unit of `mA`. -/
def reqA : PlaceOrderRequest :=
  { table_number := "5", items := [{ menu_item_id := 1, quantity := 1 }], notes := none }

/-- The order that `place_order dbA reqA` creates and returns. -/
def ordA : Order :=
  { id := 2, table_number := "5",
    items := [{ menu_item_id := 1, name := "Tea", price := 1/1000, quantity := 1,
                total := 1/1000 }],
    sub_total := 0, tax := 0, total := 0, status := "placed", paid := false,
    notes := none, created_at := 10 }

/-- An unavailable menu item. -/
def mC : MenuItem :=
  { id := 7, name := "Cake", description := none, price := 5, category := none,
    is_available := false }

/-- A store holding only the unavailable `mC`. -/
def dbC : DB := { menuitems := [mC], orders := [], nextId := 1, now := 0 }

/-- A placement request referencing the unavailable item `mC`. -/
def reqC : PlaceOrderRequest :=
  { table_number := "1", items := [{ menu_item_id := 7, quantity := 2 }], notes := none }

/-- A placement request with an empty item list. -/
def reqEmpty : PlaceOrderRequest := { table_number := "3", items := [], notes := none }

/-- A stored unpaid order in status `served`. -/
def ordB : Order :=
  { id := 1, table_number := "2", items := [], sub_total := 5, tax := 0, total := 5,
    status := "served", paid := false, notes := none, created_at := 3 }

/-- A store holding only the unpaid order `ordB`. -/
def dbB : DB := { menuitems := [], orders := [ordB], nextId := 2, now := 4 }

end Hotel

namespace Hotel

/-! ## Helper lemmas -/

theorem roundQ_intCast (n : ℤ) : roundQ (n : ℚ) = n := by
  simp [roundQ]

theorem round2_zero : round2 0 = 0 := by
  have h : roundQ (0 : ℚ) = 0 := by
    simpa using roundQ_intCast 0
  simp [round2, h]

theorem round2_round2 (q : ℚ) : round2 (round2 q) = round2 q := by
  unfold round2
  rw [div_mul_cancel₀ _ (by norm_num : (100:ℚ) ≠ 0), roundQ_intCast]

theorem find?_id_first (pre : List Order) (o : Order) (post : List Order) (n : Nat)
    (hpre : ∀ p ∈ pre, p.id ≠ n) (ho : o.id = n) :
    List.find? (fun x => x.id == n) (pre ++ o :: post) = some o := by
  induction pre with
  | nil =>
      simp only [List.nil_append]
      exact List.find?_cons_of_pos _ (by simp [ho])
  | cons p ps ih =>
      have hp : p.id ≠ n := hpre p (List.mem_cons_self p ps)
      have hps : ∀ q ∈ ps, q.id ≠ n := fun q hq => hpre q (List.mem_cons_of_mem p hq)
      rw [List.cons_append, List.find?_cons_of_neg _ (by simp [hp])]
      exact ih hps

theorem update_one_eq_none_iff (f : Order → Order) (oid : Nat) (l : List Order) :
    update_one f oid l = none ↔ ∀ o ∈ l, o.id ≠ oid := by
  induction l with
  | nil => simp [update_one]
  | cons o rest ih =>
      by_cases h : o.id = oid
      · simp [update_one, h]
      · simp [update_one, h, ih]

theorem update_one_eq_some (f : Order → Order) (oid : Nat) (l l' : List Order)
    (h : update_one f oid l = some l') :
    ∃ pre o post, l = pre ++ o :: post ∧ (∀ p ∈ pre, p.id ≠ oid) ∧ o.id = oid ∧
      l' = pre ++ f o :: post := by
  induction l generalizing l' with
  | nil => simp [update_one] at h
  | cons a rest ih =>
      by_cases ha : a.id = oid
      · refine ⟨[], a, rest, by simp, by simp, ha, ?_⟩
        simp [update_one, ha] at h
        simp [h.symm]
      · have ha' : (a.id == oid) = false := beq_eq_false_iff_ne.mpr ha
        cases hrec : update_one f oid rest with
        | none =>
            simp only [update_one, ha', Bool.false_eq_true, if_false, hrec,
              Option.map_none'] at h
            exact absurd h (by simp)
        | some l'' =>
            simp only [update_one, ha', Bool.false_eq_true, if_false, hrec,
              Option.map_some', Option.some.injEq] at h
            obtain ⟨pre, o, post, hrest, hpre, hoid, hl⟩ := ih l'' hrec
            refine ⟨a :: pre, o, post, by simp [hrest], ?_, hoid, by simp [← h, hl]⟩
            intro p hp
            rcases List.mem_cons.mp hp with rfl | hp
            · exact ha
            · exact hpre p hp

theorem ordersFresh_ne (s : DB) (hf : ordersFresh s = true) :
    ∀ o ∈ s.orders, o.id ≠ s.nextId := by
  intro o ho
  have := List.all_eq_true.mp hf o ho
  exact Nat.ne_of_lt (by simpa using this)

theorem buildSnapshot_ok_totals (s : DB) (l : List OrderPlaceItem)
    (snap : List OrderItem) (h : buildSnapshot s l = .ok snap) :
    ∀ i ∈ snap, i.total = i.price * (i.quantity : ℚ) := by
  induction l generalizing snap with
  | nil =>
      simp only [buildSnapshot, Except.ok.injEq] at h
      subst h; simp
  | cons it rest ih =>
      simp only [buildSnapshot] at h
      cases hfind : find_one_available s it.menu_item_id with
      | none => simp [hfind] at h
      | some m =>
          rw [hfind] at h
          cases htail : buildSnapshot s rest with
          | error e => simp [htail] at h
          | ok tail =>
              rw [htail] at h
              simp only [Except.ok.injEq] at h
              subst h
              intro i hi
              rcases List.mem_cons.mp hi with rfl | hi
              · rfl
              · exact ih tail htail i hi

theorem buildSnapshot_missing (s : DB) (l : List OrderPlaceItem)
    (h : ∃ it ∈ l, find_one_available s it.menu_item_id = none) :
    ∃ mid, (∃ it ∈ l, it.menu_item_id = mid ∧ find_one_available s mid = none) ∧
      buildSnapshot s l = .error (.notFoundError
        ("Menu item not found or unavailable: " ++ toString mid)) := by
  induction l with
  | nil => simp at h
  | cons it rest ih =>
      cases hfind : find_one_available s it.menu_item_id with
      | none =>
          exact ⟨it.menu_item_id,
            ⟨it, List.mem_cons_self it rest, rfl, hfind⟩,
            by simp [buildSnapshot, hfind]⟩
      | some m =>
          obtain ⟨it', hit', hnone⟩ := h
          rcases List.mem_cons.mp hit' with rfl | hit'
          · rw [hfind] at hnone; exact absurd hnone (by simp)
          · obtain ⟨mid, ⟨it'', hit'', heq, hn⟩, hb⟩ := ih ⟨it', hit', hnone⟩
            refine ⟨mid, ⟨it'', List.mem_cons_of_mem it hit'', heq, hn⟩, ?_⟩
            simp [buildSnapshot, hfind, hb]

theorem place_order_some_inv (s : DB) (req : PlaceOrderRequest) (o : Order)
    (hf : ordersFresh s = true)
    (h : (place_order s req).1 = .ok (some o)) :
    ∃ snap, buildSnapshot s req.items = .ok snap ∧ o = mkOrder s req snap ∧
      (place_order s req).2 = { s with orders := s.orders ++ [o], nextId := s.nextId + 1 } := by
  by_cases he : req.items.isEmpty
  · simp [place_order, he] at h
  · cases hb : buildSnapshot s req.items with
    | error e => simp [place_order, he, hb] at h
    | ok snap =>
        have hfind : find_one_order
            { s with orders := s.orders ++ [mkOrder s req snap], nextId := s.nextId + 1 }
            s.nextId = some (mkOrder s req snap) := by
          unfold find_one_order
          exact find?_id_first s.orders (mkOrder s req snap) [] s.nextId
            (ordersFresh_ne s hf) rfl
        have hres : place_order s req = (.ok (some (mkOrder s req snap)),
            { s with orders := s.orders ++ [mkOrder s req snap], nextId := s.nextId + 1 }) := by
          simp [place_order, he, hb, hfind]
        rw [hres] at h
        simp only [Except.ok.injEq, Option.some.injEq] at h
        subst h
        exact ⟨snap, rfl, rfl, by rw [hres]⟩

end Hotel

namespace Hotel

theorem mkOrder_tax (s : DB) (req : PlaceOrderRequest) (snap : List OrderItem) :
    (mkOrder s req snap).tax = 0 := by
  have : (mkOrder s req snap).tax
      = round2 ((snap.map (fun i => i.total)).sum * 0) := rfl
  rw [this, mul_zero, round2_zero]

theorem mkOrder_total (s : DB) (req : PlaceOrderRequest) (snap : List OrderItem) :
    (mkOrder s req snap).total = round2 ((snap.map (fun i => i.total)).sum) := by
  have : (mkOrder s req snap).total
      = round2 ((snap.map (fun i => i.total)).sum
          + round2 ((snap.map (fun i => i.total)).sum * 0)) := rfl
  rw [this, mul_zero, round2_zero, add_zero]

/-! ## Claim theorems -/

/-- C2: `billingOverview` returns exactly the set of orders whose `paid` flag
is false, and its `total_to_collect` equals the rounding to 2 decimal places
of the sum of the `total` field over exactly that returned set. -/
theorem c2_billing_overview_unpaid (s : DB) :
    (billing_overview s).1 = s.orders.filter (fun d => d.paid == false) ∧
    (∀ o, o ∈ (billing_overview s).1 ↔ o ∈ s.orders ∧ o.paid = false) ∧
    (billing_overview s).2
      = round2 (((billing_overview s).1.map (fun d => d.total)).sum) := by
  refine ⟨rfl, ?_, rfl⟩
  intro o
  simp [billing_overview, List.mem_filter]

/-- C4: placing an order with an empty `requested_items` list fails with
`ValidationError` (HTTP 400, "No items provided") and leaves the store
untouched — no Order is created. -/
theorem c4_place_order_empty_items (s : DB) (req : PlaceOrderRequest)
    (h : req.items = []) :
    place_order s req = (.error (.validationError "No items provided"), s) := by
  simp [place_order, h]

/-- C4 witness: the theorem applied to the concrete empty request. -/
theorem c4_place_order_empty_items_witness :
    place_order dbB reqEmpty = (.error (.validationError "No items provided"), dbB) :=
  c4_place_order_empty_items dbB reqEmpty rfl

/-- C5: a status update with a value outside the valid status set fails with
`ValidationError` (HTTP 400, "Invalid status") and leaves the store — in
particular the targeted order — unchanged. -/
theorem c5_update_status_invalid (s : DB) (oid : Nat) (st : String)
    (h : validStatuses.contains st = false) :
    update_order_status s oid st = (.error (.validationError "Invalid status"), s) := by
  unfold update_order_status
  rw [if_pos h]

/-- C5 witness: the theorem applied to the invalid status "SERVED". -/
theorem c5_update_status_invalid_witness :
    update_order_status dbB 1 "SERVED"
      = (.error (.validationError "Invalid status"), dbB) :=
  c5_update_status_invalid dbB 1 "SERVED" (by decide)

/-- C3: a placement request containing an item whose id does not resolve to
an available menu item fails with `NotFoundError` whose message identifies
an offending id, and the store is unchanged (no Order record is created). -/
theorem c3_place_order_unavailable (s : DB) (req : PlaceOrderRequest)
    (h : ∃ it ∈ req.items, find_one_available s it.menu_item_id = none) :
    ∃ mid, (∃ it ∈ req.items, it.menu_item_id = mid ∧ find_one_available s mid = none) ∧
      place_order s req = (.error (.notFoundError
        ("Menu item not found or unavailable: " ++ toString mid)), s) := by
  obtain ⟨mid, hmid, hb⟩ := buildSnapshot_missing s req.items h
  have hne : req.items.isEmpty = false := by
    obtain ⟨it, hit, -⟩ := h
    cases hi : req.items with
    | nil => rw [hi] at hit; simp at hit
    | cons a l => simp [hi]
  exact ⟨mid, hmid, by simp [place_order, hne, hb]⟩

/-- C3 witness: the theorem applied to a request referencing the unavailable
item `mC`. -/
theorem c3_place_order_unavailable_witness :
    ∃ mid, (∃ it ∈ reqC.items, it.menu_item_id = mid ∧ find_one_available dbC mid = none) ∧
      place_order dbC reqC = (.error (.notFoundError
        ("Menu item not found or unavailable: " ++ toString mid)), dbC) :=
  c3_place_order_unavailable dbC reqC
    ⟨{ menu_item_id := 7, quantity := 2 }, by simp [reqC], rfl⟩

end Hotel

namespace Hotel

/-- C6: `markPaid` on an existing order — regardless of its prior `status`
and `paid` values — sets `paid = true` and `status = "paid"` together and
returns the refreshed stored order; on a nonexistent id it fails with
`NotFoundError` and changes nothing. -/
theorem c6_mark_paid (s : DB) (oid : Nat) :
    ((∃ o ∈ s.orders, o.id = oid) →
      ∃ o', (mark_order_paid s oid).1 = .ok (some o') ∧ o'.paid = true ∧
        o'.status = "paid" ∧ o' ∈ (mark_order_paid s oid).2.orders) ∧
    ((∀ o ∈ s.orders, o.id ≠ oid) →
      mark_order_paid s oid = (.error (.notFoundError "Order not found"), s)) := by
  constructor
  · rintro ⟨o, ho, hoid⟩
    cases hu : update_one (fun o => { o with paid := true, status := "paid" }) oid s.orders with
    | none => exact absurd hoid ((update_one_eq_none_iff _ _ _).mp hu o ho)
    | some l' =>
        obtain ⟨pre, w, post, hsplit, hpre, hwid, hl'⟩ := update_one_eq_some _ _ _ _ hu
        have hfind : find_one_order { s with orders := l' } oid
            = some { w with paid := true, status := "paid" } := by
          show List.find? (fun o => o.id == oid) l' = _
          rw [hl']
          exact find?_id_first pre _ post oid hpre hwid
        refine ⟨{ w with paid := true, status := "paid" }, ?_, rfl, rfl, ?_⟩
        · simp [mark_order_paid, hu, hfind]
        · show _ ∈ (mark_order_paid s oid).2.orders
          have h2 : (mark_order_paid s oid).2.orders = l' := by
            simp [mark_order_paid, hu]
          rw [h2, hl']
          exact List.mem_append_right pre (List.mem_cons_self _ post)
  · intro h
    have hu : update_one (fun o => { o with paid := true, status := "paid" }) oid s.orders
        = none := (update_one_eq_none_iff _ _ _).mpr h
    simp [mark_order_paid, hu]

/-- C6 witness: the theorem applied to the store `dbB` (order 1 exists with
status "served" and `paid = false`; order 99 does not exist). -/
theorem c6_mark_paid_witness :
    (∃ o', (mark_order_paid dbB 1).1 = .ok (some o') ∧ o'.paid = true ∧
      o'.status = "paid" ∧ o' ∈ (mark_order_paid dbB 1).2.orders) ∧
    mark_order_paid dbB 99 = (.error (.notFoundError "Order not found"), dbB) :=
  ⟨(c6_mark_paid dbB 1).1 ⟨ordB, by simp [dbB], rfl⟩,
   (c6_mark_paid dbB 99).2 (by
     intro o ho
     have : o = ordB := by simpa [dbB] using ho
     rw [this]
     decide)⟩

/-- C7: for an existing order and any status value in the valid set,
`updateStatus` succeeds and sets the order's status to that value no matter
what the current status is (no transition graph is enforced); on a
nonexistent id it fails with `NotFoundError` and changes nothing. -/
theorem c7_update_status_valid (s : DB) (oid : Nat) (st : String)
    (hst : validStatuses.contains st = true) :
    ((∃ o ∈ s.orders, o.id = oid) →
      ∃ o', (update_order_status s oid st).1 = .ok (some o') ∧ o'.status = st ∧
        o' ∈ (update_order_status s oid st).2.orders) ∧
    ((∀ o ∈ s.orders, o.id ≠ oid) →
      update_order_status s oid st = (.error (.notFoundError "Order not found"), s)) := by
  have hcond : ¬ (validStatuses.contains st = false) := fun hc => by
    rw [hst] at hc
    exact Bool.noConfusion hc
  constructor
  · rintro ⟨o, ho, hoid⟩
    cases hu : update_one (fun o => { o with status := st }) oid s.orders with
    | none => exact absurd hoid ((update_one_eq_none_iff _ _ _).mp hu o ho)
    | some l' =>
        obtain ⟨pre, w, post, hsplit, hpre, hwid, hl'⟩ := update_one_eq_some _ _ _ _ hu
        have hfind : find_one_order { s with orders := l' } oid
            = some { w with status := st } := by
          show List.find? (fun o => o.id == oid) l' = _
          rw [hl']
          exact find?_id_first pre _ post oid hpre hwid
        refine ⟨{ w with status := st }, ?_, rfl, ?_⟩
        · simp only [update_order_status, if_neg hcond, hu, hfind]
        · show _ ∈ (update_order_status s oid st).2.orders
          have h2 : (update_order_status s oid st).2.orders = l' := by
            simp only [update_order_status, if_neg hcond, hu]
          rw [h2, hl']
          exact List.mem_append_right pre (List.mem_cons_self _ post)
  · intro h
    have hu : update_one (fun o => { o with status := st }) oid s.orders = none :=
      (update_one_eq_none_iff _ _ _).mpr h
    simp only [update_order_status, if_neg hcond, hu]

/-- C7 witness: the theorem applied at the backward transition
`served → placed` on the existing order 1, and at the nonexistent order 99. -/
theorem c7_update_status_valid_witness :
    (∃ o', (update_order_status dbB 1 "placed").1 = .ok (some o') ∧ o'.status = "placed" ∧
      o' ∈ (update_order_status dbB 1 "placed").2.orders) ∧
    update_order_status dbB 99 "placed"
      = (.error (.notFoundError "Order not found"), dbB) :=
  ⟨(c7_update_status_valid dbB 1 "placed" (by decide)).1 ⟨ordB, by simp [dbB], rfl⟩,
   (c7_update_status_valid dbB 99 "placed" (by decide)).2 (by
     intro o ho
     have : o = ordB := by simpa [dbB] using ho
     rw [this]
     decide)⟩

end Hotel

namespace Hotel

/-- C10: a successful `updateStatus` rewrites exactly the targeted order and
changes nothing in it but `status` (the returned order is the stored one
with only `status` replaced); in particular the `paid` flag is untouched,
so an order whose flag was false — even after `updateStatus(id, "paid")` —
still appears in `billingOverview`'s unpaid list. -/
theorem c10_update_status_frame (s : DB) (oid : Nat) (st : String) (o' : Order)
    (h : (update_order_status s oid st).1 = .ok (some o')) :
    ∃ pre o post, s.orders = pre ++ o :: post ∧
      (update_order_status s oid st).2.orders = pre ++ o' :: post ∧
      o' = { o with status := st } ∧
      (o.paid = false → o' ∈ (billing_overview (update_order_status s oid st).2).1) := by
  cases hc : validStatuses.contains st with
  | true =>
      have hcond : ¬ (validStatuses.contains st = false) := fun hx => by
        rw [hc] at hx
        exact Bool.noConfusion hx
      cases hu : update_one (fun o => { o with status := st }) oid s.orders with
      | none =>
          simp only [update_order_status, if_neg hcond, hu] at h
          exact absurd h (by simp)
      | some l' =>
          obtain ⟨pre, w, post, hsplit, hpre, hwid, hl'⟩ := update_one_eq_some _ _ _ _ hu
          have hfind : find_one_order { s with orders := l' } oid
              = some { w with status := st } := by
            show List.find? (fun o => o.id == oid) l' = _
            rw [hl']
            exact find?_id_first pre _ post oid hpre hwid
          have h2 : (update_order_status s oid st).2.orders = l' := by
            simp only [update_order_status, if_neg hcond, hu]
          simp only [update_order_status, if_neg hcond, hu, hfind, Except.ok.injEq,
            Option.some.injEq] at h
          refine ⟨pre, w, post, hsplit, ?_, h.symm, ?_⟩
          · rw [h2, hl', ← h]
          · intro hpaid
            have hmem : o' ∈ (update_order_status s oid st).2.orders := by
              rw [h2, hl', ← h]
              exact List.mem_append_right pre (List.mem_cons_self _ post)
            have hpaid' : o'.paid = false := by rw [← h]; exact hpaid
            show o' ∈ ((update_order_status s oid st).2.orders.filter
              (fun d => d.paid == false))
            exact List.mem_filter.mpr ⟨hmem, by rw [hpaid']; rfl⟩
  | false =>
      rw [update_order_status, if_pos hc] at h
      exact absurd h (by simp)

/-- C10 witness: updating the unpaid order 1 from "served" to "paid" leaves
its `paid` flag false and keeps it in the billing overview. -/
theorem c10_update_status_frame_witness :
    ∃ pre o post, dbB.orders = pre ++ o :: post ∧
      (update_order_status dbB 1 "paid").2.orders
        = pre ++ { ordB with status := "paid" } :: post ∧
      { ordB with status := "paid" } = { o with status := "paid" } ∧
      (o.paid = false → { ordB with status := "paid" }
        ∈ (billing_overview (update_order_status dbB 1 "paid").2).1) :=
  c10_update_status_frame dbB 1 "paid" { ordB with status := "paid" } rfl

/-- C8: every successful `placeOrder` persists the new order with
`status = "placed"` and `paid = false`, appending exactly it to the store,
and returns that persisted order including its generated id and creation
timestamp. -/
theorem c8_place_order_persists (s : DB) (req : PlaceOrderRequest) (o : Order)
    (hf : ordersFresh s = true)
    (h : (place_order s req).1 = .ok (some o)) :
    o.status = "placed" ∧ o.paid = false ∧ o.id = s.nextId ∧ o.created_at = s.now ∧
    (place_order s req).2.orders = s.orders ++ [o] := by
  obtain ⟨snap, hb, ho, hs'⟩ := place_order_some_inv s req o hf h
  subst ho
  exact ⟨rfl, rfl, rfl, rfl, by rw [hs']⟩

/-- C8 witness: the theorem applied to the concrete placement
`place_order dbA reqA`, which returns `ordA`. -/
theorem c8_place_order_persists_witness :
    ordA.status = "placed" ∧ ordA.paid = false ∧ ordA.id = dbA.nextId ∧
    ordA.created_at = dbA.now ∧
    (place_order dbA reqA).2.orders = dbA.orders ++ [ordA] :=
  c8_place_order_persists dbA reqA ordA (by rfl)
    (by norm_num [place_order, buildSnapshot, find_one_available, find_one_order,
      mkOrder, dbA, reqA, mA, ordA, round2, roundQ, List.find?])

end Hotel

namespace Hotel

/-- C1 counterexample: placing one unit of the available item priced 0.001
succeeds and returns `ordA`, whose stored `sub_total` (0, the rounded sum)
differs from the raw sum of `unit_price × quantity` over its line items
(0.001).  So the returned `sub_total` does not equal that sum in general. -/
theorem c1_sub_total_counterexample :
    (place_order dbA reqA).1 = .ok (some ordA) ∧
    ordA.sub_total ≠ (ordA.items.map (fun i => i.price * (i.quantity : ℚ))).sum := by
  constructor
  · norm_num [place_order, buildSnapshot, find_one_available, find_one_order,
      mkOrder, dbA, reqA, mA, ordA, round2, roundQ, List.find?]
  · norm_num [ordA]

/-- C1 (amended): for every successful `placeOrder`, the returned order's
`sub_total` equals the sum of `unit_price × quantity` over its line items
*rounded to 2 decimal places*, each line item's `line_total` equals
`unit_price × quantity` exactly, `tax` equals 0, and `total` equals
`round(sub_total + tax, 2)`. -/
theorem c1_place_order_totals (s : DB) (req : PlaceOrderRequest) (o : Order)
    (hf : ordersFresh s = true)
    (h : (place_order s req).1 = .ok (some o)) :
    o.sub_total = round2 ((o.items.map (fun i => i.price * (i.quantity : ℚ))).sum) ∧
    (∀ i ∈ o.items, i.total = i.price * (i.quantity : ℚ)) ∧
    o.tax = 0 ∧
    o.total = round2 (o.sub_total + o.tax) := by
  obtain ⟨snap, hb, ho, -⟩ := place_order_some_inv s req o hf h
  subst ho
  have htot := buildSnapshot_ok_totals s req.items snap hb
  have hmap : (snap.map (fun i => i.total)).sum
      = (snap.map (fun i => i.price * (i.quantity : ℚ))).sum := by
    congr 1
    exact List.map_congr_left htot
  have hsub : (mkOrder s req snap).sub_total
      = round2 ((snap.map (fun i => i.total)).sum) := rfl
  refine ⟨?_, htot, mkOrder_tax s req snap, ?_⟩
  · rw [hsub, hmap]
    rfl
  · rw [mkOrder_total s req snap, hsub, mkOrder_tax s req snap, add_zero, round2_round2]

/-- C1 witness: the amended theorem applied to the concrete placement
`place_order dbA reqA`, which returns `ordA`. -/
theorem c1_place_order_totals_witness :
    ordA.sub_total = round2 ((ordA.items.map (fun i => i.price * (i.quantity : ℚ))).sum) ∧
    ordA.tax = 0 ∧
    ordA.total = round2 (ordA.sub_total + ordA.tax) := by
  have h := c1_place_order_totals dbA reqA ordA (by rfl)
    (by norm_num [place_order, buildSnapshot, find_one_available, find_one_order,
      mkOrder, dbA, reqA, mA, ordA, round2, roundQ, List.find?])
  exact ⟨h.1, h.2.2.1, h.2.2.2⟩

/-- C9 counterexample: with the filter field `status` supplied as the empty
string, `list_orders` ignores it (Python truthiness) and returns the order
`ordB`, which does not match the supplied value under the spec's reading of
a conjunctive filter.  So the output is not exactly the matching orders. -/
theorem c9_empty_string_counterexample :
    list_orders dbB (some "") none none = [ordB] ∧
    specMatches (some "") none none ordB = false := ⟨rfl, rfl⟩

/-- C9 (amended): `listOrders` returns exactly the orders matching every
supplied filter field — where a `status` or `table_number` value supplied
as the empty string is treated as not supplied — sorted by `created_at`
descending; the empty filter returns all orders. -/
theorem c9_list_orders (s : DB) (status table : Option String) (paid : Option Bool) :
    (list_orders s status table paid).Perm
      (s.orders.filter (orderMatches status table paid)) ∧
    (∀ d, d ∈ list_orders s status table paid ↔
      d ∈ s.orders ∧ orderMatches status table paid d = true) ∧
    List.Sorted createdDesc (list_orders s status table paid) ∧
    (list_orders s none none none).Perm s.orders := by
  refine ⟨List.perm_insertionSort _ _, ?_, List.sorted_insertionSort _ _, ?_⟩
  · intro d
    simp [list_orders, List.mem_filter]
  · have h2 : s.orders.filter (orderMatches none none none) = s.orders :=
      List.filter_eq_self.mpr (fun a _ => rfl)
    show (List.insertionSort createdDesc
      (s.orders.filter (orderMatches none none none))).Perm s.orders
    rw [h2]
    exact List.perm_insertionSort _ _

end Hotel
